import Mathlib

/-!
Verification development for the helm-values-checker validation engine.

The definitions below are a shallow embedding of the Go source:
  - internal/validator (unknown.go, typematch.go, schema.go, validator.go)
  - internal/model (finding.go)

YAML document trees (gopkg.in/yaml.v3 yaml.Node) are embedded as the
mutual inductive YNode/YEntries/YSeq.  Per the engine's data-model
invariant, every node reachable during comparison has been
alias-resolved, so alias nodes are represented by their resolved
targets and the source's alias-resolution steps become identities.
External collaborators (encoding/json parsing of schema bytes and the
gojsonschema evaluator) are modelled by explicit parameters carrying
their results, mirroring the specification's component boundary.
Go map iteration, whose order the Go runtime randomizes, is modelled
by list parameters carrying one concrete enumeration order.
-/

set_option autoImplicit false

deriving instance DecidableEq for Except

namespace HVC

/-- Severity of a validation finding (internal/model): 0 = Error, 1 = Warning. -/
inductive Severity where
  | error
  | warning
  deriving DecidableEq, Repr

/-- One validation finding (internal/model Finding).  The Go zero value of
the Suggestion field is the empty string. -/
structure Finding where
  severity : Severity
  line : Nat
  keyPath : String
  message : String
  suggestion : String
  deriving DecidableEq, Repr

/-- Node kinds of gopkg.in/yaml.v3 that survive alias resolution. -/
inductive YKind where
  | scalar
  | mapping
  | sequence
  deriving DecidableEq, Repr

mutual
/-- An alias-resolved yaml.Node.  A scalar carries its resolved short tag
(one of the strings returned by yaml.Node.ShortTag for scalars), its literal
Value and its Line.  A mapping carries its key/value entries (the key nodes
are scalars, kept here as the key string plus the key node's line). -/
inductive YNode where
  | scalar (tag : String) (val : String) (line : Nat)
  | mapping (entries : YEntries) (line : Nat)
  | sequence (items : YSeq) (line : Nat)

/-- The alternating key/value Content list of a yaml mapping node. -/
inductive YEntries where
  | nil
  | cons (key : String) (keyLine : Nat) (val : YNode) (rest : YEntries)

/-- The Content list of a yaml sequence node. -/
inductive YSeq where
  | nil
  | cons (head : YNode) (rest : YSeq)
end

mutual
/-- Structural equality test for embedded yaml nodes. -/
def ynodeBeq : YNode → YNode → Bool
  | .scalar t v l, .scalar t2 v2 l2 => t == t2 && v == v2 && l == l2
  | .mapping es l, .mapping es2 l2 => yentriesBeq es es2 && l == l2
  | .sequence xs l, .sequence xs2 l2 => yseqBeq xs xs2 && l == l2
  | _, _ => false

/-- Structural equality test for mapping entry lists. -/
def yentriesBeq : YEntries → YEntries → Bool
  | .nil, .nil => true
  | .cons k kl v r, .cons k2 kl2 v2 r2 =>
      k == k2 && kl == kl2 && ynodeBeq v v2 && yentriesBeq r r2
  | _, _ => false

/-- Structural equality test for sequence item lists. -/
def yseqBeq : YSeq → YSeq → Bool
  | .nil, .nil => true
  | .cons h r, .cons h2 r2 => ynodeBeq h h2 && yseqBeq r r2
  | _, _ => false
end

/-- The Kind discriminator of a node (yaml.Node.Kind after alias resolution). -/
def YNode.kindOf : YNode → YKind
  | .scalar .. => .scalar
  | .mapping .. => .mapping
  | .sequence .. => .sequence

/-- yaml.Node.ShortTag: the resolved tag for scalars, and the fixed
container tags for mappings and sequences. -/
def YNode.shortTag : YNode → String
  | .scalar t _ _ => t
  | .mapping _ _ => "!!map"
  | .sequence _ _ => "!!seq"

/-- yaml.Node.Value: the literal text of a scalar; empty for containers. -/
def YNode.valueOf : YNode → String
  | .scalar _ v _ => v
  | .mapping _ _ => ""
  | .sequence _ _ => ""

/-- yaml.Node.Line. -/
def YNode.lineOf : YNode → Nat
  | .scalar _ _ l => l
  | .mapping _ l => l
  | .sequence _ l => l

/-- Whether a mapping entry list is empty (len(node.Content) == 0). -/
def YEntries.isEmptyE : YEntries → Bool
  | .nil => true
  | .cons .. => false

/-- The entry list of a mapping node (empty for other kinds; callers guard
on the node kind first, as the source does). -/
def YNode.contentE : YNode → YEntries
  | .mapping es _ => es
  | _ => .nil

/-- Whether a sequence item list is empty. -/
def YSeq.isEmptyS : YSeq → Bool
  | .nil => true
  | .cons .. => false

/-- joinPath from unknown.go: dot-concatenation with an empty parent kept bare. -/
def joinPath (parent child : String) : String :=
  if parent == "" then child else parent ++ "." ++ child

/-- Accumulating worker for splitDot. -/
def splitDotAux : List Char → List Char → List String
  | [], acc => [String.mk acc.reverse]
  | c :: cs, acc =>
      if c == '.' then String.mk acc.reverse :: splitDotAux cs []
      else splitDotAux cs (c :: acc)

/-- strings.Split(s, ".") as used throughout the source for dot-paths. -/
def splitDot (s : String) : List String :=
  splitDotAux s.data []

/-- strings.Join. -/
def strJoin (sep : String) : List String → String
  | [] => ""
  | [x] => x
  | x :: xs => x ++ sep ++ strJoin sep xs

/-- strings.ToLower (the inputs compared by the engine are ASCII key
names, for which the per-character lowering agrees with Go). -/
def lowerStr (s : String) : String :=
  String.mk (s.data.map Char.toLower)

/-- Prefix test on character lists. -/
def startsWithL : List Char → List Char → Bool
  | _, [] => true
  | [], _ :: _ => false
  | c :: cs, d :: ds => c == d && startsWithL cs ds

/-- strings.Contains: some suffix of the haystack starts with the needle. -/
def strContains (s sub : String) : Bool :=
  (s.data.tails).any (fun t => startsWithL t sub.data)

/-- matchGlobParts from unknown.go.  The imperative loop advances through
pattern and path while both have segments left; a double-star segment that
is last in the pattern succeeds immediately, and otherwise the remaining
pattern is tried against every suffix of the remaining path (including the
empty suffix).  When the loop exits, the match succeeds exactly when both
lists were fully consumed. -/
def matchGlobParts : List String → List String → Bool
  | p :: ps, a :: as =>
      if p == "**" then
        if ps.isEmpty then true
        else ((a :: as).tails).any (fun suf => matchGlobParts ps suf)
      else if p == "*" || p == a then matchGlobParts ps as
      else false
  | pattern, path => pattern.isEmpty && path.isEmpty

/-- matchGlob from unknown.go: exact string equality short-circuits, else the
dot-split segment lists are compared. -/
def matchGlob (pattern path : String) : Bool :=
  if pattern == path then true
  else matchGlobParts (splitDot pattern) (splitDot path)

/-- matchesIgnore from unknown.go: a path is ignored when any pattern matches. -/
def matchesIgnore (path : String) (patterns : List String) : Bool :=
  patterns.any (fun pattern => matchGlob pattern path)

/-- Helper for the Levenshtein recurrence: given f = lev xs, computes
lev (x :: xs) by structural recursion on the second word. -/
def levAux (f : List Char → Nat) (x : Char) : List Char → Nat
  | [] => f [] + 1
  | y :: ys =>
      if x == y then f ys
      else 1 + min (f ys) (min (levAux f x ys) (f (y :: ys)))

/-- Rune-level Levenshtein distance, as computed by
github.com/agnivade/levenshtein ComputeDistance: unit-cost insertion,
deletion and substitution. -/
def lev : List Char → List Char → Nat
  | [], ys => ys.length
  | x :: xs, ys => levAux (lev xs) x ys

/-- Levenshtein distance on strings (runes of the two strings). -/
def levenshtein (a b : String) : Nat :=
  lev a.data b.data

/-- typesCompatible from typematch.go: identical tags, or both numeric. -/
def numericTag (t : String) : Bool :=
  t == "!!int" || t == "!!float"

/-- typesCompatible from typematch.go. -/
def typesCompatible (userTag defaultTag : String) : Bool :=
  if userTag == defaultTag then true
  else numericTag userTag && numericTag defaultTag

/-- isStringIntMismatch from typematch.go. -/
def isStringIntMismatch (tagA tagB : String) : Bool :=
  (tagA == "!!str" && numericTag tagB) || (tagB == "!!str" && numericTag tagA)

/-- The scanning loop of isResourceQuantityPath: for i with i+2 < len(parts),
test parts[i] == "resources" and parts[i+1] in {limits, requests}. -/
def rqScan : List String → Bool
  | a :: b :: c :: rest =>
      (a == "resources" && (b == "limits" || b == "requests")) || rqScan (b :: c :: rest)
  | _ => false

/-- isResourceQuantityPath from typematch.go. -/
def isResourceQuantityPath (path : String) : Bool :=
  let parts := splitDot path
  if parts.length < 3 then false else rqScan parts

/-- jsonSchemaTypeToYAMLTags from typematch.go. -/
def jsonSchemaTypeToYAMLTags (jsonType : String) : List String :=
  if jsonType == "string" then ["!!str"]
  else if jsonType == "integer" then ["!!int"]
  else if jsonType == "number" then ["!!int", "!!float"]
  else if jsonType == "boolean" then ["!!bool"]
  else if jsonType == "null" then ["!!null"]
  else if jsonType == "array" then ["!!seq"]
  else if jsonType == "object" then ["!!map"]
  else []

/-- schemaTypesCompatible from typematch.go: translate every schema type to
its yaml tags, then accept when the user tag is compatible with any of them.
Returns the full translated tag list alongside, for error messages. -/
def schemaTypesCompatible (userTag : String) (schemaTypes : List String) :
    Bool × List String :=
  let allowedTags := schemaTypes.flatMap jsonSchemaTypeToYAMLTags
  (allowedTags.any (fun tag => typesCompatible userTag tag), allowedTags)

/-- friendlyType from typematch.go. -/
def friendlyType (tag : String) : String :=
  if tag == "!!str" then "string"
  else if tag == "!!int" then "int"
  else if tag == "!!float" then "float"
  else if tag == "!!bool" then "bool"
  else if tag == "!!null" then "null"
  else if tag == "!!seq" then "list"
  else if tag == "!!map" then "map"
  else tag

/-- The deduplication loop of friendlyTypes: keep the first occurrence of
each friendly name, in encounter order. -/
def dedupKeep : List String → List String → List String
  | seen, [] => seen.reverse
  | seen, t :: ts =>
      if seen.contains t then dedupKeep seen ts else dedupKeep (t :: seen) ts

/-- friendlyTypes from typematch.go: deduplicated friendly names joined with
a human-readable or-list. -/
def friendlyTypes (tags : List String) : String :=
  let unique := dedupKeep [] (tags.map friendlyType)
  match unique with
  | [] => "unknown"
  | [a] => a
  | [a, b] => a ++ " or " ++ b
  | _ =>
      strJoin ", " (unique.dropLast) ++ ", or " ++ (unique.getLastD "")

/-- Key list of a mapping entry list, in document order.  This is the
content of the map built by mappingKeys in unknown.go; the list order
stands in for one enumeration order of that Go map. -/
def entryKeys : YEntries → List String
  | .nil => []
  | .cons k _ _ rest => k :: entryKeys rest

/-- mappingKeys from unknown.go: the key set of a mapping node, empty for
any other node kind. -/
def mappingKeys (node : YNode) : List String :=
  match node with
  | .mapping es _ => entryKeys es
  | _ => []

/-- First-match lookup in a mapping entry list. -/
def entLookup : YEntries → String → Option YNode
  | .nil, _ => none
  | .cons k _ v rest, key => if k == key then some v else entLookup rest key

/-- getValueForKey from unknown.go (alias nodes are already resolved in
this embedding, so the alias-resolution step is the identity). -/
def getValueForKey (node : YNode) (key : String) : Option YNode :=
  match node with
  | .mapping es _ => entLookup es key
  | _ => none

/-- First-match lookup in an association list (the subchart-defaults map
and the schema type map). -/
def lookupAssoc {α : Type} : List (String × α) → String → Option α
  | [], _ => none
  | (k, v) :: rest, key => if k == key then some v else lookupAssoc rest key

/-- One step of the findClosestKey loop: keep the candidate when its
distance to the (lowercased) key is strictly below the best so far. -/
def fckStep (key : String) (acc : String × Nat) (candidate : String) : String × Nat :=
  let dist := levenshtein (lowerStr key) (lowerStr candidate)
  if dist < acc.2 then (candidate, dist) else acc

/-- findClosestKey from unknown.go.  The candidates list carries one
enumeration order of the Go map the source ranges over; the initial best
is the empty string with threshold distance 4. -/
def findClosestKey (key : String) (candidates : List String) : String :=
  (candidates.foldl (fckStep key) ("", 4)).1

/-- Accumulator of the findDeepSuggestion loop: best exact-leaf match,
best Levenshtein match with its distance, and best containment match with
its length difference. -/
structure DeepAcc where
  exactMatch : String
  levenBest : String
  levenBestDist : Nat
  containBest : String
  containBestDiff : Nat

/-- One step of the findDeepSuggestion loop over the flattened path map
(unknown.go): strategy 1 takes the exact leaf-name match with the shortest
path and skips the other strategies for that candidate; strategy 2 keeps
the strictly closest Levenshtein match below distance 4; strategy 3 keeps
the containment match with the smallest length difference, when that
difference is at most half the shorter name. -/
def fdsStep (unknownPath leaf : String) (acc : DeepAcc) (cand : String × String) : DeepAcc :=
  let path := cand.1
  let pathLeaf := cand.2
  if path == unknownPath then acc
  else
    let lowerPathLeaf := lowerStr pathLeaf
    if leaf == lowerPathLeaf then
      if acc.exactMatch == "" || path.length < acc.exactMatch.length then
        { acc with exactMatch := path }
      else acc
    else
      let dist := lev leaf.data lowerPathLeaf.data
      let acc :=
        if dist < acc.levenBestDist then
          { acc with levenBest := path, levenBestDist := dist }
        else acc
      if strContains lowerPathLeaf leaf || strContains leaf lowerPathLeaf then
        let shorter := min leaf.length lowerPathLeaf.length
        let diff := (Int.natAbs ((lowerPathLeaf.length : Int) - (leaf.length : Int)))
        if diff ≤ shorter / 2 && diff < acc.containBestDiff then
          { acc with containBest := path, containBestDiff := diff }
        else acc
      else acc

/-- findDeepSuggestion from unknown.go.  allPaths carries one enumeration
order of the pre-computed path map; the three strategies are resolved in
priority order after the loop. -/
def findDeepSuggestion (unknownPath : String) (allPaths : List (String × String)) : String :=
  let parts := splitDot unknownPath
  let leaf := lowerStr (parts.getLastD "")
  let acc := allPaths.foldl (fdsStep unknownPath leaf)
    ⟨"", "", 4, "", 1000⟩
  if acc.exactMatch != "" then acc.exactMatch
  else if acc.levenBest != "" then acc.levenBest
  else if acc.containBest != "" then acc.containBest
  else ""

mutual
/-- detectUnknownKeys from unknown.go.  The nil-pointer guards of the
source are unrepresentable here (the embedding has no nil nodes); a
non-mapping user node yields no findings. -/
def detectUnknownKeys (u d : YNode) (schemaKeys : Option (List String))
    (sub : List (String × YNode)) (ign : List String) (path : String)
    (allPaths : Option (List (String × String))) : List Finding :=
  match u with
  | .mapping es _ => unknownEntries es d schemaKeys sub ign path allPaths
  | _ => []

/-- The loop of detectUnknownKeys over the user mapping entries, in
document order.  Each entry contributes: nothing when its full path is
ignored; a recursive walk against the subchart defaults when the key
names a subchart; a recursive walk against the default value when the
key is known (stopping at an empty default mapping); a recursive walk
against an empty synthetic default when only the schema declares the
key; and otherwise an unknown-key Error finding with a sibling or deep
suggestion. -/
def unknownEntries (es : YEntries) (d : YNode) (schemaKeys : Option (List String))
    (sub : List (String × YNode)) (ign : List String) (path : String)
    (allPaths : Option (List (String × String))) : List Finding :=
  match es with
  | .nil => []
  | .cons k kl v rest =>
      (let fullPath := joinPath path k
       if matchesIgnore fullPath ign then []
       else
         match lookupAssoc sub k with
         | some subD =>
             if v.kindOf == .mapping then
               detectUnknownKeys v subD none [] ign fullPath allPaths
             else []
         | none =>
           if (mappingKeys d).contains k then
             match getValueForKey d k with
             | some dv =>
                 if v.kindOf == .mapping && dv.kindOf == .mapping then
                   if dv.contentE.isEmptyE then []
                   else detectUnknownKeys v dv schemaKeys sub ign fullPath allPaths
                 else []
             | none => []
           else
             if (match schemaKeys with
                 | some ks => ks.contains fullPath
                 | none => false) then
               if v.kindOf == .mapping then
                 detectUnknownKeys v (.mapping .nil 0) schemaKeys sub ign fullPath allPaths
               else []
             else
               let sug := findClosestKey k (mappingKeys d)
               let sug :=
                 if sug != "" then joinPath path sug
                 else
                   match allPaths with
                   | some ap => findDeepSuggestion fullPath ap
                   | none => ""
               [⟨.error, kl, fullPath, "Unknown key \"" ++ fullPath ++ "\"", sug⟩]) ++
        unknownEntries rest d schemaKeys sub ign path allPaths
end

/-- The loop body of detectUnknownKeys for one user entry, restated as a
standalone function; the lemma unknownEntries_cons below shows it is
definitionally the head contribution of the loop. -/
def unknownEntryCore (k : String) (kl : Nat) (v : YNode) (d : YNode)
    (schemaKeys : Option (List String)) (sub : List (String × YNode))
    (ign : List String) (path : String)
    (allPaths : Option (List (String × String))) : List Finding :=
  let fullPath := joinPath path k
  if matchesIgnore fullPath ign then []
  else
    match lookupAssoc sub k with
    | some subD =>
        if v.kindOf == .mapping then
          detectUnknownKeys v subD none [] ign fullPath allPaths
        else []
    | none =>
      if (mappingKeys d).contains k then
        match getValueForKey d k with
        | some dv =>
            if v.kindOf == .mapping && dv.kindOf == .mapping then
              if dv.contentE.isEmptyE then []
              else detectUnknownKeys v dv schemaKeys sub ign fullPath allPaths
            else []
        | none => []
      else
        if (match schemaKeys with
            | some ks => ks.contains fullPath
            | none => false) then
          if v.kindOf == .mapping then
            detectUnknownKeys v (.mapping .nil 0) schemaKeys sub ign fullPath allPaths
          else []
        else
          let sug := findClosestKey k (mappingKeys d)
          let sug :=
            if sug != "" then joinPath path sug
            else
              match allPaths with
              | some ap => findDeepSuggestion fullPath ap
              | none => ""
          [⟨.error, kl, fullPath, "Unknown key \"" ++ fullPath ++ "\"", sug⟩]

/-- SchemaTypeMap from schema.go: dot-path to allowed JSON Schema type
names.  The list carries the map entries in one enumeration order; lookup
is by key. -/
abbrev SchemaTypeMap := List (String × List String)

/-- kindName from typematch.go (alias nodes are resolved away in this
embedding, so only the three remaining kinds occur). -/
def kindName : YKind → String
  | .scalar => "scalar"
  | .mapping => "mapping"
  | .sequence => "sequence"

/-- The schema-fallback block of detectTypeMismatches (duplicated in the
source for an absent default and for a null default): when the schema
declares types for the path and the user value is not null, check
compatibility; on incompatibility at a resource-quantity path the source
reads allowedTags[0], which panics (here: an error result) when the
translated tag list is empty. -/
def schemaFallbackCheck (v : YNode) (fullPath : String)
    (st : Option SchemaTypeMap) : Except Unit (List Finding) :=
  match st with
  | none => .ok []
  | some stm =>
      match lookupAssoc stm fullPath with
      | none => .ok []
      | some allowedTypes =>
          if v.shortTag == "!!null" then .ok []
          else
            let r := schemaTypesCompatible v.shortTag allowedTypes
            if r.1 then .ok []
            else
              let msg := "Type mismatch at \"" ++ fullPath ++ "\": expected " ++
                friendlyTypes r.2 ++ ", got " ++ friendlyType v.shortTag ++
                " (\"" ++ v.valueOf ++ "\")"
              if isResourceQuantityPath fullPath then
                match r.2 with
                | [] => .error ()
                | t0 :: _ =>
                    if isStringIntMismatch v.shortTag t0 then .ok []
                    else .ok [⟨.error, v.lineOf, fullPath, msg, ""⟩]
              else .ok [⟨.error, v.lineOf, fullPath, msg, ""⟩]

/-- The template extraction of checkSequence: the first element of the
default sequence, when the sequence is non-empty and that element is a
mapping. -/
def seqTemplateOf (dv : YNode) : Option YNode :=
  match dv with
  | .sequence (.cons template _) _ =>
      if template.kindOf == .mapping then some template else none
  | _ => none

mutual
/-- detectTypeMismatches from typematch.go.  A Go panic (the out-of-range
index in the schema-fallback block) is modelled as an error result that
aborts the walk, as the panic aborts the Go run. -/
def detectTypeMismatches (u d : YNode) (ign : List String) (path : String)
    (st : Option SchemaTypeMap) : Except Unit (List Finding) :=
  match u with
  | .mapping ues _ =>
      if d.kindOf == .mapping then tmEntries ues d ign path st
      else .ok []
  | _ => .ok []

/-- The loop of detectTypeMismatches over the user mapping entries, in
document order.  Each entry contributes: nothing when ignored; the
schema-fallback check when the default is absent or null; nothing for an
explicit user null; a recursive walk for matching mappings (stopping at
an empty default mapping); the sequence template check for matching
sequences; the resource-quantity exemption; a scalar tag comparison; and
a final container-kind comparison. -/
def tmEntries (es : YEntries) (d : YNode) (ign : List String) (path : String)
    (st : Option SchemaTypeMap) : Except Unit (List Finding) :=
  match es with
  | .nil => .ok []
  | .cons k _ v rest =>
      let fullPath := joinPath path k
      let head : Except Unit (List Finding) :=
        if matchesIgnore fullPath ign then .ok []
        else
          match getValueForKey d k with
          | none => schemaFallbackCheck v fullPath st
          | some dv =>
              if dv.shortTag == "!!null" then schemaFallbackCheck v fullPath st
              else if v.shortTag == "!!null" then .ok []
              else if dv.kindOf == .mapping && v.kindOf == .mapping then
                if dv.contentE.isEmptyE then .ok []
                else detectTypeMismatches v dv ign fullPath st
              else if dv.kindOf == .sequence && v.kindOf == .sequence then
                -- checkSequence, inlined here so that the mutual recursion
                -- stays structural; the named wrapper below restates it
                match v with
                | .sequence uitems _ =>
                    (match seqTemplateOf dv with
                     | some template =>
                         if uitems.isEmptyS then .ok []
                         else seqElems uitems 0 template ign fullPath st
                     | none => .ok [])
                | _ => .ok []
              else if isResourceQuantityPath fullPath &&
                  isStringIntMismatch v.shortTag dv.shortTag then .ok []
              else if !(typesCompatible v.shortTag dv.shortTag) then
                .ok [⟨.error, v.lineOf, fullPath,
                  "Type mismatch at \"" ++ fullPath ++ "\": expected " ++
                    friendlyType dv.shortTag ++ ", got " ++
                    friendlyType v.shortTag ++ " (\"" ++ v.valueOf ++ "\")", ""⟩]
              else if dv.kindOf != v.kindOf && dv.kindOf != .scalar &&
                  v.kindOf != .scalar then
                .ok [⟨.error, v.lineOf, fullPath,
                  "Type mismatch at \"" ++ fullPath ++ "\": expected " ++
                    kindName dv.kindOf ++ ", got " ++ kindName v.kindOf, ""⟩]
              else .ok []
      match head with
      | .error e => .error e
      | .ok fs =>
          match tmEntries rest d ign path st with
          | .error e => .error e
          | .ok fs2 => .ok (fs ++ fs2)

/-- The element loop of checkSequence, tracking the element index used in
the bracketed path suffix. -/
def seqElems (items : YSeq) (idx : Nat) (template : YNode) (ign : List String)
    (path : String) (st : Option SchemaTypeMap) : Except Unit (List Finding) :=
  match items with
  | .nil => .ok []
  | .cons elem rest =>
      let head : Except Unit (List Finding) :=
        if elem.kindOf == .mapping then
          let elemPath := path ++ "[" ++ toString idx ++ "]"
          let ukFindings := detectUnknownKeys elem template none [] ign elemPath none
          match detectTypeMismatches elem template ign elemPath st with
          | .error e => .error e
          | .ok tmFindings => .ok (ukFindings ++ tmFindings)
        else .ok []
      match head with
      | .error e => .error e
      | .ok fs =>
          match seqElems rest (idx + 1) template ign path st with
          | .error e => .error e
          | .ok fs2 => .ok (fs ++ fs2)
end

/-- checkSequence from typematch.go: with both sequences non-empty and the
first default element (the template) a mapping, every mapping element of
the user sequence is checked against the template by both detectors.
This is the function inlined into the sequence branch of tmEntries. -/
def checkSequence (userSeq dseq : YNode) (ign : List String) (path : String)
    (st : Option SchemaTypeMap) : Except Unit (List Finding) :=
  match userSeq with
  | .sequence uitems _ =>
      (match seqTemplateOf dseq with
       | some template =>
           if uitems.isEmptyS then .ok []
           else seqElems uitems 0 template ign path st
       | none => .ok [])
  | _ => .ok []

/-- The loop body of detectTypeMismatches for one user entry, restated as
a standalone function; the lemma tmEntries_cons below shows it is
definitionally the head contribution of the loop. -/
def tmEntryCore (k : String) (v : YNode) (d : YNode) (ign : List String)
    (path : String) (st : Option SchemaTypeMap) : Except Unit (List Finding) :=
  let fullPath := joinPath path k
  if matchesIgnore fullPath ign then .ok []
  else
    match getValueForKey d k with
    | none => schemaFallbackCheck v fullPath st
    | some dv =>
        if dv.shortTag == "!!null" then schemaFallbackCheck v fullPath st
        else if v.shortTag == "!!null" then .ok []
        else if dv.kindOf == .mapping && v.kindOf == .mapping then
          if dv.contentE.isEmptyE then .ok []
          else detectTypeMismatches v dv ign fullPath st
        else if dv.kindOf == .sequence && v.kindOf == .sequence then
          match v with
          | .sequence uitems _ =>
              (match seqTemplateOf dv with
               | some template =>
                   if uitems.isEmptyS then .ok []
                   else seqElems uitems 0 template ign fullPath st
               | none => .ok [])
          | _ => .ok []
        else if isResourceQuantityPath fullPath &&
            isStringIntMismatch v.shortTag dv.shortTag then .ok []
        else if !(typesCompatible v.shortTag dv.shortTag) then
          .ok [⟨.error, v.lineOf, fullPath,
            "Type mismatch at \"" ++ fullPath ++ "\": expected " ++
              friendlyType dv.shortTag ++ ", got " ++
              friendlyType v.shortTag ++ " (\"" ++ v.valueOf ++ "\")", ""⟩]
        else if dv.kindOf != v.kindOf && dv.kindOf != .scalar &&
            v.kindOf != .scalar then
          .ok [⟨.error, v.lineOf, fullPath,
            "Type mismatch at \"" ++ fullPath ++ "\": expected " ++
              kindName dv.kindOf ++ ", got " ++ kindName v.kindOf, ""⟩]
        else .ok []

mutual
/-- A parsed JSON value, the result of encoding/json Unmarshal on schema
bytes.  Object fields are kept in a list; encoding/json maps have unique
keys after unmarshalling, so first-match scanning below coincides with
Go map access, and the field order stands in for one enumeration order
of the Go map. -/
inductive Json where
  | null
  | bool (b : Bool)
  | num (n : Int)
  | str (s : String)
  | arr (items : JList)
  | obj (fields : JFields)

/-- Elements of a JSON array. -/
inductive JList where
  | nil
  | cons (head : Json) (rest : JList)

/-- Fields of a JSON object. -/
inductive JFields where
  | nil
  | cons (key : String) (val : Json) (rest : JFields)
end

/-- Go map access schema[key] on an unmarshalled object. -/
def jlookup : JFields → String → Option Json
  | .nil, _ => none
  | .cons k v rest, key => if k == key then some v else jlookup rest key

/-- The string elements of a JSON array (the collection loop for a
"type" array in walkSchemaTypes). -/
def jstrings : JList → List String
  | .nil => []
  | .cons (.str s) rest => s :: jstrings rest
  | .cons _ rest => jstrings rest

/-- The type entry recorded by walkSchemaTypes for one property: a string
"type" becomes a one-element list, an array "type" its string elements
(only when at least one is a string). -/
def typeEntryOf (propDef : JFields) (fullPath : String) : SchemaTypeMap :=
  match jlookup propDef "type" with
  | some (.str t) => [(fullPath, [t])]
  | some (.arr items) =>
      let ts := jstrings items
      if ts.isEmpty then [] else [(fullPath, ts)]
  | _ => []

mutual
/-- walkSchemaTypes from schema.go: access the "properties" object of a
schema object and walk its properties.  The access is written as a scan
so that the recursion stays structural; with unique object keys this is
the Go map access. -/
def walkSchemaTypes : JFields → String → SchemaTypeMap
  | .nil, _ => []
  | .cons k v rest, path =>
      if k == "properties" then
        match v with
        | .obj props => walkPropsT props path
        | _ => []
      else walkSchemaTypes rest path

/-- The properties loop of walkSchemaTypes: record each property's type
entry, then recurse into its nested properties. -/
def walkPropsT : JFields → String → SchemaTypeMap
  | .nil, _ => []
  | .cons name v rest, path =>
      (match v with
       | .obj propDef =>
           let fullPath := joinPath path name
           typeEntryOf propDef fullPath ++ walkSchemaTypes propDef fullPath
       | _ => []) ++ walkPropsT rest path
end

/-- extractSchemaTypes from schema.go.  schemaEmpty models
len(schemaBytes) == 0 and parsedSchema the result of json.Unmarshal on
the schema bytes (none on a parse failure; a non-object value fails the
unmarshal into a map).  On empty input or a parse failure the function
silently returns the empty map. -/
def extractSchemaTypes (schemaEmpty : Bool) (parsedSchema : Option Json) : SchemaTypeMap :=
  if schemaEmpty then []
  else
    match parsedSchema with
    | some (.obj fields) => walkSchemaTypes fields ""
    | _ => []

mutual
/-- findDeprecatedPaths from schema.go: access the "properties" object
and walk its properties for truthy "deprecated" markers, pairing each
deprecated path with its optional "description" text. -/
def findDeprecatedPaths : JFields → String → List (String × String)
  | .nil, _ => []
  | .cons k v rest, path =>
      if k == "properties" then
        match v with
        | .obj props => depProps props path
        | _ => []
      else findDeprecatedPaths rest path

/-- The properties loop of findDeprecatedPaths. -/
def depProps : JFields → String → List (String × String)
  | .nil, _ => []
  | .cons name v rest, path =>
      (match v with
       | .obj propDef =>
           let fullPath := joinPath path name
           (match jlookup propDef "deprecated" with
            | some (.bool true) =>
                [(fullPath,
                  match jlookup propDef "description" with
                  | some (.str d) => d
                  | _ => "")]
            | _ => []) ++ findDeprecatedPaths propDef fullPath
       | _ => []) ++ depProps rest path
end

mutual
/-- findLineForPath from schema.go: resolve the line of a dot-path in the
user tree, with strings.SplitN(path, ".", 2) realized through splitDot. -/
def findLineForPath (node : YNode) (path : String) : Nat :=
  if path == "" then node.lineOf
  else
    let parts := splitDot path
    let key := parts.headD ""
    let restPath := strJoin "." parts.tail
    match node with
    | .mapping es _ => flpEntries es key restPath
    | _ => 0

/-- The entry scan of findLineForPath. -/
def flpEntries (es : YEntries) (key restPath : String) : Nat :=
  match es with
  | .nil => 0
  | .cons k kl v rest =>
      if k == key then
        if restPath == "" then kl else findLineForPath v restPath
      else flpEntries rest key restPath
end

/-- checkDeprecated from schema.go: parsedSchema is the json.Unmarshal of
the schema bytes (none, or a non-object value, yields no findings); each
deprecated path present in the user document with a resolvable line
produces a Warning. -/
def checkDeprecated (userNode : YNode) (parsedSchema : Option Json)
    (ign : List String) : List Finding :=
  match parsedSchema with
  | some (.obj fields) =>
      (findDeprecatedPaths fields "").flatMap (fun pm =>
        if matchesIgnore pm.1 ign then []
        else
          let line := findLineForPath userNode pm.1
          if line > 0 then
            [⟨.warning, line, pm.1,
              "Deprecated key \"" ++ pm.1 ++ "\"" ++
                (if pm.2 != "" then " - " ++ pm.2 else ""), ""⟩]
          else [])
  | _ => []

/-- One constraint violation reported by the external gojsonschema
evaluator: its Field(), Type() and Description(). -/
structure SchemaViolation where
  field : String
  vtype : String
  description : String
  deriving DecidableEq, Repr

/-- strings.ReplaceAll(path, "/", ".") (single-character replacement). -/
def replaceSlashes (s : String) : String :=
  String.mk (s.data.map (fun c => if c == '/' then '.' else c))

/-- Whether the schema type map passed to validateSchema is non-empty
(Go: len(schemaTypes) > 0, false for a nil map). -/
def stNonempty : Option SchemaTypeMap → Bool
  | none => false
  | some l => !l.isEmpty

/-- validateSchema from schema.go.  schemaEmpty models
len(schemaBytes) == 0; parsedSchema is the json.Unmarshal of the schema
bytes (used by checkDeprecated); evalResult is the outcome of the
external gojsonschema evaluation of the user document against the schema
bytes (error on a malformed schema).  The yaml and json conversions of
the in-memory user tree succeed for every tree this embedding
represents, so their error paths are not modelled.  Note the signature:
the source returns only the findings list, with no error value, and on
an evaluator error it returns the findings accumulated so far — none. -/
def validateSchema (userNode : YNode) (schemaEmpty : Bool)
    (parsedSchema : Option Json) (evalResult : Except Unit (List SchemaViolation))
    (ignoreKeys : List String) (schemaTypes : Option SchemaTypeMap) : List Finding :=
  if schemaEmpty then []
  else
    match evalResult with
    | .error _ => []
    | .ok violations =>
        (violations.flatMap (fun e =>
          if stNonempty schemaTypes && e.vtype == "invalid_type" then []
          else
            let field := if e.field == "(root)" then "" else e.field
            let path := if field != "" then replaceSlashes field else field
            if matchesIgnore path ignoreKeys then []
            else
              [⟨.error, findLineForPath userNode path, path,
                "Schema validation: " ++ e.description, ""⟩])) ++
          checkDeprecated userNode parsedSchema ignoreKeys

/-- Follows the specification's words for the quantity-like path shape
(section 4.4 rule 3 and the claim text): the resources.limits or
resources.requests pair is matched against the trailing two ancestor
segments before the leaf.  Stated for comparison with
isResourceQuantityPath from the source, which scans for the pair at any
position. -/
def specQuantityLike (path : String) : Bool :=
  match (splitDot path).reverse with
  | _ :: p2 :: p1 :: _ =>
      p1 == "resources" && (p2 == "limits" || p2 == "requests")
  | _ => false

/-- Whether a key list has pairwise distinct elements. -/
def nodupKeys : List String → Bool
  | [] => true
  | k :: ks => !(ks.contains k) && nodupKeys ks

/-- Whether every mapping element of a sequence equals the given template
node. -/
def mappingElemsEq (t : YNode) : YSeq → Bool
  | .nil => true
  | .cons e rest =>
      (if e.kindOf == .mapping then ynodeBeq e t else true) && mappingElemsEq t rest

/-- Whether a sequence whose first element is a mapping consists, in its
mapping elements, of copies of that first element. -/
def seqHomog : YSeq → Bool
  | .nil => true
  | .cons h rest => if h.kindOf == .mapping then mappingElemsEq h rest else true

mutual
/-- The side condition of the amended self-validation property: every
mapping in the tree has pairwise distinct keys, and in every sequence
whose first element is a mapping, all mapping elements equal that first
element (the source checks every sequence element against the first one
as a template, so heterogeneous mapping elements are reported even when
the tree is compared against itself). -/
def selfClean : YNode → Bool
  | .scalar .. => true
  | .mapping es _ => nodupKeys (entryKeys es) && entriesClean es
  | .sequence xs _ => seqClean xs && seqHomog xs

/-- selfClean for each entry value of a mapping. -/
def entriesClean : YEntries → Bool
  | .nil => true
  | .cons _ _ v rest => selfClean v && entriesClean rest

/-- selfClean for each element of a sequence. -/
def seqClean : YSeq → Bool
  | .nil => true
  | .cons h rest => selfClean h && seqClean rest
end

/-- The safety side condition for the schema type map: every entry's type
list contains at least one type name with a non-empty yaml tag
translation. -/
def stGood : Option SchemaTypeMap → Bool
  | none => true
  | some l => l.all (fun e => !((e.2.flatMap jsonSchemaTypeToYAMLTags).isEmpty))

/-- Membership of an entry (key, key line, value) in a mapping entry list. -/
def EntMem (k : String) (kl : Nat) (v : YNode) : YEntries → Prop
  | .nil => False
  | .cons k2 kl2 v2 rest => (k = k2 ∧ kl = kl2 ∧ v = v2) ∨ EntMem k kl v rest

/-- The combined nil-map and membership test of the source's schema-type
lookups (Go: schemaTypes != nil and schemaTypes[fullPath]). -/
def stLookup (st : Option SchemaTypeMap) (path : String) : Option (List String) :=
  match st with
  | none => none
  | some stm => lookupAssoc stm path

/-- A user mapping x: value (line 2). -/
def exU1 : YNode := .mapping (.cons "x" 2 (.scalar "!!str" "value" 2) .nil) 1

/-- A schema whose only property carries an external reference:
properties.x.$ref = http colon slash slash evil.com/schema.json. -/
def exS2 : Json :=
  .obj (.cons "type" (.str "object")
    (.cons "properties"
      (.obj (.cons "x" (.obj (.cons "$ref" (.str "http://evil.com/schema.json") .nil)) .nil))
      .nil))

/-- Parent defaults: replicaCount: 1. -/
def exDp3 : YNode := .mapping (.cons "replicaCount" 1 (.scalar "!!int" "1" 1) .nil) 1

/-- Subchart defaults for redis: replicas: 1. -/
def exDs3 : YNode := .mapping (.cons "replicas" 1 (.scalar "!!int" "1" 1) .nil) 1

/-- The user subtree under the redis key: replicas: "three". -/
def exU3sub : YNode := .mapping (.cons "replicas" 2 (.scalar "!!str" "three" 2) .nil) 2

/-- User document: redis: (replicas: "three"). -/
def exU3 : YNode := .mapping (.cons "redis" 1 exU3sub .nil) 1

/-- Subchart map with the single subchart redis. -/
def exSub3 : List (String × YNode) := [("redis", exDs3)]

/-- A default tree containing a sequence of two different mapping
elements: xs: [(a: 1), (b: 2)]. -/
def exD4 : YNode :=
  .mapping (.cons "xs" 1
    (.sequence
      (.cons (.mapping (.cons "a" 2 (.scalar "!!int" "1" 2) .nil) 2)
        (.cons (.mapping (.cons "b" 3 (.scalar "!!int" "2" 3) .nil) 3) .nil)) 1)
    .nil) 1

/-- User document with a null value at the deprecated key: old: null. -/
def exU7 : YNode := .mapping (.cons "old" 2 (.scalar "!!null" "null" 2) .nil) 1

/-- A schema marking the property old as deprecated with guidance text. -/
def exS7 : Json :=
  .obj (.cons "type" (.str "object")
    (.cons "properties"
      (.obj (.cons "old"
        (.obj (.cons "deprecated" (.bool true)
          (.cons "description" (.str "use new") .nil))) .nil))
      .nil))

/-- Defaults with a string under a path that contains the pair
resources.limits followed by two more segments:
resources.limits.foo.bar = "1000m". -/
def exD8 : YNode :=
  .mapping (.cons "resources" 1
    (.mapping (.cons "limits" 2
      (.mapping (.cons "foo" 3
        (.mapping (.cons "bar" 4 (.scalar "!!str" "1000m" 4) .nil) 4) .nil) 3) .nil) 2)
    .nil) 1

/-- User document pairing an integer with the string default of exD8. -/
def exU8 : YNode :=
  .mapping (.cons "resources" 1
    (.mapping (.cons "limits" 2
      (.mapping (.cons "foo" 3
        (.mapping (.cons "bar" 4 (.scalar "!!int" "10" 4) .nil) 4) .nil) 3) .nil) 2)
    .nil) 1

/-- Defaults with an empty mapping at key a. -/
def exD9 : YNode := .mapping (.cons "a" 1 (.mapping .nil 1) .nil) 1

/-- User document with a sequence of mappings at key a: a: [(b: 1)]. -/
def exU9 : YNode :=
  .mapping (.cons "a" 1
    (.sequence (.cons (.mapping (.cons "b" 2 (.scalar "!!int" "1" 2) .nil) 2) .nil) 1)
    .nil) 1

/-- User document resources.limits.cpu = 5 (integer). -/
def exU10 : YNode :=
  .mapping (.cons "resources" 1
    (.mapping (.cons "limits" 2
      (.mapping (.cons "cpu" 3 (.scalar "!!int" "5" 3) .nil) 3) .nil) 2)
    .nil) 1

/-- Defaults resources.limits.memory = "1Gi" (cpu absent). -/
def exD10 : YNode :=
  .mapping (.cons "resources" 1
    (.mapping (.cons "limits" 2
      (.mapping (.cons "memory" 3 (.scalar "!!str" "1Gi" 3) .nil) 3) .nil) 2)
    .nil) 1

/-- A schema type map whose entry for a quantity-like path holds only a
type name outside the recognized set, so its tag translation is empty. -/
def exSt10 : SchemaTypeMap := [("resources.limits.cpu", ["frob"])]

/-- The default tree used by the C7 witness: x: null. -/
def exD7w : YNode := .mapping (.cons "x" 1 (.scalar "!!null" "null" 1) .nil) 1

mutual
/-- Soundness of the structural equality test on nodes. -/
theorem ynodeBeq_sound : ∀ (a b : YNode), ynodeBeq a b = true → a = b
  | .scalar t v l, .scalar t2 v2 l2, h => by
      simp only [ynodeBeq, Bool.and_eq_true, beq_iff_eq] at h
      obtain ⟨⟨h1, h2⟩, h3⟩ := h
      subst h1; subst h2; subst h3; rfl
  | .mapping es l, .mapping es2 l2, h => by
      simp only [ynodeBeq, Bool.and_eq_true, beq_iff_eq] at h
      obtain ⟨h1, h2⟩ := h
      have := yentriesBeq_sound es es2 h1
      subst this; subst h2; rfl
  | .sequence xs l, .sequence xs2 l2, h => by
      simp only [ynodeBeq, Bool.and_eq_true, beq_iff_eq] at h
      obtain ⟨h1, h2⟩ := h
      have := yseqBeq_sound xs xs2 h1
      subst this; subst h2; rfl
  | .scalar .., .mapping .., h => by simp [ynodeBeq] at h
  | .scalar .., .sequence .., h => by simp [ynodeBeq] at h
  | .mapping .., .scalar .., h => by simp [ynodeBeq] at h
  | .mapping .., .sequence .., h => by simp [ynodeBeq] at h
  | .sequence .., .scalar .., h => by simp [ynodeBeq] at h
  | .sequence .., .mapping .., h => by simp [ynodeBeq] at h

/-- Soundness of the structural equality test on entry lists. -/
theorem yentriesBeq_sound : ∀ (a b : YEntries), yentriesBeq a b = true → a = b
  | .nil, .nil, _ => rfl
  | .cons k kl v r, .cons k2 kl2 v2 r2, h => by
      simp only [yentriesBeq, Bool.and_eq_true, beq_iff_eq] at h
      obtain ⟨⟨⟨h1, h2⟩, h3⟩, h4⟩ := h
      have hv := ynodeBeq_sound v v2 h3
      have hr := yentriesBeq_sound r r2 h4
      subst h1; subst h2; subst hv; subst hr; rfl
  | .nil, .cons .., h => by simp [yentriesBeq] at h
  | .cons .., .nil, h => by simp [yentriesBeq] at h

/-- Soundness of the structural equality test on sequence item lists. -/
theorem yseqBeq_sound : ∀ (a b : YSeq), yseqBeq a b = true → a = b
  | .nil, .nil, _ => rfl
  | .cons h1 r1, .cons h2 r2, h => by
      simp only [yseqBeq, Bool.and_eq_true, beq_iff_eq] at h
      obtain ⟨hh, hr⟩ := h
      have h3 := ynodeBeq_sound h1 h2 hh
      have h4 := yseqBeq_sound r1 r2 hr
      subst h3; subst h4; rfl
  | .nil, .cons .., h => by simp [yseqBeq] at h
  | .cons .., .nil, h => by simp [yseqBeq] at h
end

/-- A key found by entLookup is among the entry keys. -/
theorem entLookup_contains : ∀ (es : YEntries) (k : String) (v : YNode),
    entLookup es k = some v → (entryKeys es).contains k = true
  | .nil, k, v, h => by simp [entLookup] at h
  | .cons k2 kl2 v2 rest, k, v, h => by
      simp only [entLookup] at h
      by_cases hk : (k2 == k) = true
      · have := beq_iff_eq.mp hk
        subst this
        simp [entryKeys, List.contains]
      · rw [if_neg (by simp [hk])] at h
        have := entLookup_contains rest k v h
        simp [entryKeys, List.contains] at this ⊢
        right
        exact this

/-- A key with a value in a mapping is among the mapping's keys. -/
theorem getVal_contains (d : YNode) (k : String) (v : YNode)
    (h : getValueForKey d k = some v) : (mappingKeys d).contains k = true := by
  cases d with
  | scalar t x l => simp [getValueForKey] at h
  | sequence xs l => simp [getValueForKey] at h
  | mapping es l =>
      simp only [getValueForKey] at h
      simp only [mappingKeys]
      exact entLookup_contains es k v h

/-- Facts following from a string-for-number pairing: the two tags are
distinct and incompatible, and neither is the null or map or sequence
tag. -/
theorem sim_facts (a b : String) (h : isStringIntMismatch a b = true) :
    typesCompatible a b = false ∧ a ≠ "!!null" ∧ b ≠ "!!null" ∧
      a ≠ "!!map" ∧ b ≠ "!!map" ∧ a ≠ "!!seq" ∧ b ≠ "!!seq" := by
  simp only [isStringIntMismatch, numericTag, Bool.or_eq_true, Bool.and_eq_true,
    beq_iff_eq] at h
  rcases h with ⟨ha, hb | hb⟩ | ⟨hb, ha | ha⟩ <;> subst ha <;> subst hb <;>
    simp [typesCompatible, numericTag]


/-- C1: on schema bytes that are non-empty and do not parse as JSON, the
schema stage of the source silently yields zero findings and the type
extraction an empty map.  The parse failure is parsedSchema = none, and
the external evaluator fails on the malformed schema bytes (evalResult =
error); validateSchema then returns the empty finding list — its return
type has no error channel at all — and extractSchemaTypes the empty map,
contradicting the claim that a hard error propagates to the caller, and
contradicting the repository's own test
TestValidateSchema_MalformedSchemaReturnsError and its caller Validate,
which call a two-value validateSchema. -/
theorem c1_malformed_schema_silently_empty :
    validateSchema exU1 false none (.error ()) [] (some []) = [] ∧
    extractSchemaTypes false none = [] :=
  ⟨by decide, by decide⟩

/-- C2: the source's validateSchema performs no external-reference scan:
on a schema carrying properties.x.$ref pointing at an http location it
emits no blocked-reference Error naming the reference — whether the
external evaluator succeeds with no violations or fails, the result is
the empty finding list, not the single Error the claim requires.  This
contradicts the repository's own tests TestContainsExternalRef and
TestValidateSchema_ExternalRefBlocked, which exercise a
containsExternalRef function absent from the source. -/
theorem c2_external_ref_not_blocked :
    validateSchema exU1 false (some exS2) (.ok []) [] (some []) = [] ∧
    validateSchema exU1 false (some exS2) (.error ()) [] (some []) = [] :=
  ⟨by decide, by decide⟩

/-- C3 counterexample: with user document redis: (replicas: "three"),
parent defaults replicaCount: 1, and subchart defaults redis -> replicas:
1, the full run emits no findings at all, although the type check scoped
to the subchart tree (shown in the third conjunct) reports the
string-for-int mismatch at redis.replicas.  Nested type-mismatch checks
are therefore not scoped to the subcomponent's default tree, refuting the
claim. -/
theorem c3_counterexample :
    detectUnknownKeys exU3 exDp3 none exSub3 [] "" none = [] ∧
    detectTypeMismatches exU3 exDp3 [] "" none = .ok [] ∧
    detectTypeMismatches exU3sub exDs3 [] "redis" none =
      .ok [⟨.error, 2, "redis.replicas",
        "Type mismatch at \"redis.replicas\": expected int, got string (\"three\")", ""⟩] :=
  ⟨by decide, by decide, by decide⟩

/-- The head contribution of the unknown-key loop is the standalone
entry body. -/
theorem unknownEntries_cons (k : String) (kl : Nat) (v : YNode) (rest : YEntries)
    (d : YNode) (sk : Option (List String)) (sub : List (String × YNode))
    (ign : List String) (p : String) (ap : Option (List (String × String))) :
    unknownEntries (.cons k kl v rest) d sk sub ign p ap =
      unknownEntryCore k kl v d sk sub ign p ap ++
        unknownEntries rest d sk sub ign p ap := by
  rw [unknownEntries]
  rfl

/-- The head contribution of the type-mismatch loop is the standalone
entry body, sequenced before the rest of the loop. -/
theorem tmEntries_cons (k : String) (kl : Nat) (v : YNode) (rest : YEntries)
    (d : YNode) (ign : List String) (p : String) (st : Option SchemaTypeMap) :
    tmEntries (.cons k kl v rest) d ign p st =
      (match tmEntryCore k v d ign p st with
       | .error e => .error e
       | .ok fs =>
           match tmEntries rest d ign p st with
           | .error e => .error e
           | .ok fs2 => .ok (fs ++ fs2)) := by
  cases v <;> rfl

/-- C3 amended: for a user key naming a known subcomponent (and not
ignored), the unknown-key pass contributes exactly the recursive
unknown-key walk of the key's subtree against the subcomponent's own
default tree (so the subcomponent key itself is never flagged, and a
non-mapping value contributes nothing); the type-mismatch pass does not
descend into the subtree at all — when the key is absent from the parent
defaults and carries no schema type entry, it contributes no type
findings for the subtree. -/
theorem c3_amended (k : String) (kl : Nat) (v S d : YNode)
    (sub : List (String × YNode)) (sk : Option (List String))
    (ign : List String) (p : String) (ap : Option (List (String × String)))
    (hsub : lookupAssoc sub k = some S)
    (hig : matchesIgnore (joinPath p k) ign = false) :
    unknownEntryCore k kl v d sk sub ign p ap =
      (if v.kindOf == .mapping then
        detectUnknownKeys v S none [] ign (joinPath p k) ap
      else []) ∧
    (getValueForKey d k = none → stLookup none (joinPath p k) = none →
      tmEntryCore k v d ign p none = .ok []) := by
  constructor
  · simp only [unknownEntryCore, hsub, hig]
    simp
  · intro hd _
    simp only [tmEntryCore, hig, hd, schemaFallbackCheck]
    simp

/-- C3 witness: the amended statement applied to the concrete subchart
input of the counterexample. -/
theorem c3_amended_witness :
    lookupAssoc exSub3 "redis" = some exDs3 ∧
    matchesIgnore (joinPath "" "redis") [] = false ∧
    (unknownEntryCore "redis" 1 exU3sub exDp3 none exSub3 [] "" none =
      (if exU3sub.kindOf == .mapping then
        detectUnknownKeys exU3sub exDs3 none [] [] (joinPath "" "redis") none
      else []) ∧
    (getValueForKey exDp3 "redis" = none → stLookup none (joinPath "" "redis") = none →
      tmEntryCore "redis" exU3sub exDp3 [] "" none = .ok [])) :=
  ⟨by rfl, by decide,
    c3_amended "redis" 1 exU3sub exDs3 exDp3 exSub3 none [] "" none
      (by rfl) (by decide)⟩

/-- C4 counterexample: the default tree xs: [(a: 1), (b: 2)] validated
against itself with no schema and no ignore patterns yields a non-empty
finding list: the second sequence element is checked against the first
element as a template, so its key b is reported as unknown. -/
theorem c4_counterexample :
    detectUnknownKeys exD4 exD4 none [] [] "" none = [] ∧
    detectTypeMismatches exD4 exD4 [] "" none =
      .ok [⟨.error, 3, "xs[1].b", "Unknown key \"xs[1].b\"", "xs[1].a"⟩] :=
  ⟨by decide, by decide⟩

/-- The empty run of the type-mismatch loop. -/
theorem tmEntries_nil (d : YNode) (ign : List String) (p : String)
    (st : Option SchemaTypeMap) : tmEntries .nil d ign p st = .ok [] := rfl

/-- Membership in the tail extends to the whole entry list. -/
theorem entMem_tail (k k2 : String) (kl kl2 : Nat) (v v2 : YNode)
    (rest : YEntries) (h : EntMem k kl v rest) :
    EntMem k kl v (.cons k2 kl2 v2 rest) := by
  simp only [EntMem]
  exact Or.inr h

/-- The head entry is a member of the entry list. -/
theorem entMem_head (k : String) (kl : Nat) (v : YNode) (rest : YEntries) :
    EntMem k kl v (.cons k kl v rest) := by
  simp [EntMem]

/-- The key of a member entry is among the entry keys. -/
theorem entMem_keys : ∀ (es : YEntries) (k : String) (kl : Nat) (v : YNode),
    EntMem k kl v es → (entryKeys es).contains k = true
  | .nil, _, _, _, h => by simp [EntMem] at h
  | .cons k2 kl2 v2 rest, k, kl, v, h => by
      simp only [EntMem] at h
      rcases h with ⟨h1, _, _⟩ | h2
      · subst h1; simp [entryKeys, List.contains]
      · have := entMem_keys rest k kl v h2
        simp [entryKeys, List.contains] at this ⊢
        right
        exact this

/-- With pairwise distinct keys, lookup of a member entry's key returns
that entry's own value. -/
theorem entLookup_self : ∀ (es : YEntries),
    nodupKeys (entryKeys es) = true →
    ∀ (k : String) (kl : Nat) (v : YNode), EntMem k kl v es →
      entLookup es k = some v
  | .nil, _, _, _, _, h => by simp [EntMem] at h
  | .cons k2 kl2 v2 rest, hnd, k, kl, v, h => by
      simp only [entryKeys, nodupKeys, Bool.and_eq_true, Bool.not_eq_true'] at hnd
      simp only [EntMem] at h
      rcases h with ⟨h1, _, h3⟩ | hrest
      · subst h1; subst h3
        simp [entLookup]
      · have hkk : k2 ≠ k := by
          intro he
          subst he
          have hc := entMem_keys rest k2 kl v hrest
          rw [hnd.1] at hc
          exact Bool.false_ne_true hc
        rw [entLookup]
        rw [if_neg (by simp [hkk])]
        exact entLookup_self rest hnd.2 k kl v hrest

/-- Every member entry's value of a clean entry list is clean. -/
theorem entriesClean_mem : ∀ (es : YEntries), entriesClean es = true →
    ∀ (k : String) (kl : Nat) (v : YNode), EntMem k kl v es →
      selfClean v = true
  | .nil, _, _, _, _, h => by simp [EntMem] at h
  | .cons k2 kl2 v2 rest, hc, k, kl, v, h => by
      simp only [entriesClean, Bool.and_eq_true] at hc
      simp only [EntMem] at h
      rcases h with ⟨_, _, h3⟩ | hrest
      · subst h3; exact hc.1
      · exact entriesClean_mem rest hc.2 k kl v hrest

/-- The entry hypothesis of the self-validation induction, derived from
cleanliness of the mapping. -/
theorem selfClean_entries (es : YEntries) (l : Nat)
    (h : selfClean (.mapping es l) = true) :
    ∀ (k : String) (kl : Nat) (v : YNode), EntMem k kl v es →
      getValueForKey (.mapping es l) k = some v ∧ selfClean v = true := by
  simp only [selfClean, Bool.and_eq_true] at h
  intro k kl v hm
  constructor
  · show entLookup es k = some v
    exact entLookup_self es h.1 k kl v hm
  · exact entriesClean_mem es h.2 k kl v hm

mutual
/-- Reflexivity of the structural node equality test. -/
theorem ynodeBeq_refl : ∀ (a : YNode), ynodeBeq a a = true
  | .scalar t v l => by simp [ynodeBeq]
  | .mapping es l => by simp [ynodeBeq, yentriesBeq_refl es]
  | .sequence xs l => by simp [ynodeBeq, yseqBeq_refl xs]

/-- Reflexivity of the structural entry-list equality test. -/
theorem yentriesBeq_refl : ∀ (es : YEntries), yentriesBeq es es = true
  | .nil => rfl
  | .cons k kl v rest => by
      simp [yentriesBeq, ynodeBeq_refl v, yentriesBeq_refl rest]

/-- Reflexivity of the structural sequence equality test. -/
theorem yseqBeq_refl : ∀ (xs : YSeq), yseqBeq xs xs = true
  | .nil => rfl
  | .cons h rest => by simp [yseqBeq, ynodeBeq_refl h, yseqBeq_refl rest]
end

/-- A tag is never in a string-for-number mismatch with itself. -/
theorem sim_self (t : String) : isStringIntMismatch t t = false := by
  by_cases h : t = "!!str"
  · simp [h, isStringIntMismatch, numericTag]
  · simp [h, isStringIntMismatch]

/-- A tag is always compatible with itself. -/
theorem tc_refl (t : String) : typesCompatible t t = true := by
  simp [typesCompatible]

mutual
/-- The unknown-key pass on a clean tree compared against itself yields
no findings. -/
theorem uk_self : ∀ (d : YNode), selfClean d = true →
    ∀ (p : String) (ap : Option (List (String × String))),
    detectUnknownKeys d d none [] [] p ap = []
  | .scalar .., _, _, _ => rfl
  | .sequence .., _, _, _ => rfl
  | .mapping es l, h, p, ap => by
      rw [detectUnknownKeys]
      exact uk_entries_self es (.mapping es l) (selfClean_entries es l h) p ap

/-- The unknown-key loop yields nothing when every entry looks itself up. -/
theorem uk_entries_self : ∀ (es : YEntries) (d : YNode),
    (∀ (k : String) (kl : Nat) (v : YNode), EntMem k kl v es →
      getValueForKey d k = some v ∧ selfClean v = true) →
    ∀ (p : String) (ap : Option (List (String × String))),
    unknownEntries es d none [] [] p ap = []
  | .nil, _, _, _, _ => by rw [unknownEntries]
  | .cons k kl v rest, d, h, p, ap => by
      obtain ⟨hd, hsc⟩ := h k kl v (entMem_head k kl v rest)
      have hc := getVal_contains d k v hd
      have hm : k ∈ mappingKeys d := by simpa using hc
      rw [unknownEntries_cons]
      rw [uk_entries_self rest d
        (fun k' kl' v' hm => h k' kl' v' (entMem_tail k' k kl' kl v' v rest hm)) p ap]
      rw [List.append_nil]
      unfold unknownEntryCore
      cases v with
      | scalar t val vl =>
          simp [matchesIgnore, lookupAssoc, hc, hm, hd, YNode.kindOf]
      | sequence xs vl =>
          simp [matchesIgnore, lookupAssoc, hc, hm, hd, YNode.kindOf]
      | mapping es2 vl =>
          cases es2 with
          | nil =>
              simp [matchesIgnore, lookupAssoc, hc, hm, hd, YNode.kindOf,
                YNode.contentE, YEntries.isEmptyE]
          | cons e1k e1kl e1v es2r =>
              have hrec := uk_self (.mapping (.cons e1k e1kl e1v es2r) vl) hsc
                (joinPath p k) ap
              simp [matchesIgnore, lookupAssoc, hc, hm, hd, YNode.kindOf,
                YNode.contentE, YEntries.isEmptyE, hrec]

/-- The type-mismatch pass on a clean tree compared against itself yields
no findings and no abort. -/
theorem tm_self : ∀ (d : YNode), selfClean d = true →
    ∀ (p : String), detectTypeMismatches d d [] p none = .ok []
  | .scalar .., _, _ => rfl
  | .sequence .., _, _ => rfl
  | .mapping es l, h, p => by
      rw [detectTypeMismatches]
      rw [if_pos (by simp [YNode.kindOf])]
      exact tm_entries_self es (.mapping es l) (selfClean_entries es l h) p

/-- The type-mismatch loop yields nothing when every entry looks itself
up. -/
theorem tm_entries_self : ∀ (es : YEntries) (d : YNode),
    (∀ (k : String) (kl : Nat) (v : YNode), EntMem k kl v es →
      getValueForKey d k = some v ∧ selfClean v = true) →
    ∀ (p : String), tmEntries es d [] p none = .ok []
  | .nil, d, _, p => tmEntries_nil d [] p none
  | .cons k kl v rest, d, h, p => by
      obtain ⟨hd, hsc⟩ := h k kl v (entMem_head k kl v rest)
      rw [tmEntries_cons]
      rw [tm_entries_self rest d
        (fun k' kl' v' hm => h k' kl' v' (entMem_tail k' k kl' kl v' v rest hm)) p]
      have hcore : tmEntryCore k v d [] p none = .ok [] := by
        unfold tmEntryCore
        cases v with
        | scalar t val vl =>
            by_cases ht : t = "!!null"
            · simp [matchesIgnore, hd, YNode.shortTag, ht, schemaFallbackCheck]
            · simp [matchesIgnore, hd, YNode.shortTag, YNode.kindOf, ht,
                sim_self, tc_refl]
        | mapping es2 vl =>
            cases es2 with
            | nil =>
                simp [matchesIgnore, hd, YNode.shortTag, YNode.kindOf,
                  YNode.contentE, YEntries.isEmptyE]
            | cons e1k e1kl e1v es2r =>
                have hrec := tm_self (.mapping (.cons e1k e1kl e1v es2r) vl) hsc
                  (joinPath p k)
                simp [matchesIgnore, hd, YNode.shortTag, YNode.kindOf,
                  YNode.contentE, YEntries.isEmptyE, hrec]
        | sequence xs vl =>
            have hclean : seqClean xs = true ∧ seqHomog xs = true := by
              simpa [selfClean, Bool.and_eq_true] using hsc
            cases xs with
            | nil =>
                simp [matchesIgnore, hd, YNode.shortTag, YNode.kindOf,
                  seqTemplateOf]
            | cons h0 xr =>
                cases h0 with
                | scalar t0 v0 l0 =>
                    simp [matchesIgnore, hd, YNode.shortTag, YNode.kindOf,
                      seqTemplateOf]
                | sequence s0 l0 =>
                    simp [matchesIgnore, hd, YNode.shortTag, YNode.kindOf,
                      seqTemplateOf]
                | mapping m0 l0 =>
                    have hcl1 : selfClean (.mapping m0 l0) = true ∧
                        seqClean xr = true := by
                      simpa [seqClean, Bool.and_eq_true] using hclean.1
                    have hhom : mappingElemsEq (.mapping m0 l0) xr = true := by
                      simpa [seqHomog, YNode.kindOf] using hclean.2
                    have hme : mappingElemsEq (.mapping m0 l0)
                        (.cons (.mapping m0 l0) xr) = true := by
                      simp [mappingElemsEq, YNode.kindOf, ynodeBeq_refl, hhom]
                    have hbody := seq_self (.cons (.mapping m0 l0) xr)
                      (.mapping m0 l0) hcl1.1 hme hclean.1 0 (joinPath p k)
                    simp [matchesIgnore, hd, YNode.shortTag, YNode.kindOf,
                      seqTemplateOf, YSeq.isEmptyS, hbody]
      rw [hcore]
      rfl

/-- The element loop of the sequence template check yields nothing when
every mapping element equals the clean template. -/
theorem seq_self : ∀ (items : YSeq) (template : YNode),
    selfClean template = true →
    mappingElemsEq template items = true →
    seqClean items = true →
    ∀ (idx : Nat) (p : String),
    seqElems items idx template [] p none = .ok []
  | .nil, _, _, _, _, _, _ => by rw [seqElems]
  | .cons elem rest2, template, ht, hm, hcl, idx, p => by
      simp only [mappingElemsEq, Bool.and_eq_true] at hm
      simp only [seqClean, Bool.and_eq_true] at hcl
      rw [seqElems]
      rw [seq_self rest2 template ht hm.2 hcl.2 (idx + 1) p]
      by_cases he : elem.kindOf = YKind.mapping
      · have hbeq : ynodeBeq elem template = true := by
          simpa [he] using hm.1
        have heq := ynodeBeq_sound elem template hbeq
        subst heq
        have huk := uk_self elem hcl.1 (p ++ "[" ++ toString idx ++ "]") none
        have htm := tm_self elem hcl.1 (p ++ "[" ++ toString idx ++ "]")
        simp [he, huk, htm]
      · simp [he]
end

/-- C4 amended: validating a default tree against itself (as both user
and defaults, no schema, no ignore patterns, no subcharts) yields no
findings from either pass, provided the tree is clean: every mapping has
pairwise distinct keys, and in every sequence whose first element is a
mapping all mapping elements equal that first element.  The counterexample
shows the second condition is necessary: the source checks every sequence
element against the first one as a template. -/
theorem c4_amended (d : YNode) (hclean : selfClean d = true) (p : String)
    (ap : Option (List (String × String))) :
    detectUnknownKeys d d none [] [] p ap = [] ∧
    detectTypeMismatches d d [] p none = .ok [] :=
  ⟨uk_self d hclean p ap, tm_self d hclean p⟩

/-- C4 witness: the amended statement applied to a concrete clean tree
with a nested mapping and a homogeneous sequence of mappings. -/
theorem c4_amended_witness :
    selfClean
      (.mapping (.cons "xs" 1
        (.sequence
          (.cons (.mapping (.cons "a" 2 (.scalar "!!int" "1" 2) .nil) 2)
            (.cons (.mapping (.cons "a" 2 (.scalar "!!int" "1" 2) .nil) 2) .nil)) 1)
        (.cons "cfg" 3 (.mapping (.cons "b" 4 (.scalar "!!str" "x" 4) .nil) 3) .nil)) 1) =
      true ∧
    (detectUnknownKeys
      (.mapping (.cons "xs" 1
        (.sequence
          (.cons (.mapping (.cons "a" 2 (.scalar "!!int" "1" 2) .nil) 2)
            (.cons (.mapping (.cons "a" 2 (.scalar "!!int" "1" 2) .nil) 2) .nil)) 1)
        (.cons "cfg" 3 (.mapping (.cons "b" 4 (.scalar "!!str" "x" 4) .nil) 3) .nil)) 1)
      (.mapping (.cons "xs" 1
        (.sequence
          (.cons (.mapping (.cons "a" 2 (.scalar "!!int" "1" 2) .nil) 2)
            (.cons (.mapping (.cons "a" 2 (.scalar "!!int" "1" 2) .nil) 2) .nil)) 1)
        (.cons "cfg" 3 (.mapping (.cons "b" 4 (.scalar "!!str" "x" 4) .nil) 3) .nil)) 1)
      none [] [] "" none = [] ∧
    detectTypeMismatches
      (.mapping (.cons "xs" 1
        (.sequence
          (.cons (.mapping (.cons "a" 2 (.scalar "!!int" "1" 2) .nil) 2)
            (.cons (.mapping (.cons "a" 2 (.scalar "!!int" "1" 2) .nil) 2) .nil)) 1)
        (.cons "cfg" 3 (.mapping (.cons "b" 4 (.scalar "!!str" "x" 4) .nil) 3) .nil)) 1)
      (.mapping (.cons "xs" 1
        (.sequence
          (.cons (.mapping (.cons "a" 2 (.scalar "!!int" "1" 2) .nil) 2)
            (.cons (.mapping (.cons "a" 2 (.scalar "!!int" "1" 2) .nil) 2) .nil)) 1)
        (.cons "cfg" 3 (.mapping (.cons "b" 4 (.scalar "!!str" "x" 4) .nil) 3) .nil)) 1)
      [] "" none = .ok []) :=
  ⟨by decide,
   c4_amended
     (.mapping (.cons "xs" 1
        (.sequence
          (.cons (.mapping (.cons "a" 2 (.scalar "!!int" "1" 2) .nil) 2)
            (.cons (.mapping (.cons "a" 2 (.scalar "!!int" "1" 2) .nil) 2) .nil)) 1)
        (.cons "cfg" 3 (.mapping (.cons "b" 4 (.scalar "!!str" "x" 4) .nil) 3) .nil)) 1)
     (by decide) "" none⟩

/-- Under the safety side condition, the tag translation of any type list
the schema type map associates with a path is non-empty. -/
theorem lookupAssoc_good : ∀ (stm : SchemaTypeMap) (path : String)
    (tys : List String), stGood (some stm) = true →
    lookupAssoc stm path = some tys →
    (tys.flatMap jsonSchemaTypeToYAMLTags).isEmpty = false
  | [], _, _, _, h => by simp [lookupAssoc] at h
  | (k, v) :: rest, path, tys, hg, h => by
      simp only [stGood, List.all_cons, Bool.and_eq_true] at hg
      by_cases hk : (k == path) = true
      · rw [lookupAssoc, if_pos hk] at h
        cases h
        simpa using hg.1
      · rw [lookupAssoc, if_neg hk] at h
        exact lookupAssoc_good rest path tys (by simpa [stGood] using hg.2) h

/-- The schema fallback never aborts under the safety side condition. -/
theorem sfc_nopanic (v : YNode) (fullPath : String) (st : Option SchemaTypeMap)
    (hg : stGood st = true) : ∃ fs, schemaFallbackCheck v fullPath st = .ok fs := by
  cases st with
  | none => exact ⟨[], rfl⟩
  | some stm =>
      rw [schemaFallbackCheck]
      cases hlk : lookupAssoc stm fullPath with
      | none => exact ⟨[], rfl⟩
      | some allowedTypes =>
          have hne := lookupAssoc_good stm fullPath allowedTypes hg hlk
          dsimp only [schemaTypesCompatible]
          split
          · exact ⟨[], rfl⟩
          · split
            · exact ⟨[], rfl⟩
            · split
              · split
                · rename_i heq
                  simp [heq] at hne
                · split
                  · exact ⟨[], rfl⟩
                  · exact ⟨_, rfl⟩
              · exact ⟨_, rfl⟩

mutual
/-- The type-mismatch pass never aborts under the safety side condition
on the schema type map. -/
theorem tm_nopanic : ∀ (u d : YNode) (ign : List String) (p : String)
    (st : Option SchemaTypeMap), stGood st = true →
    ∃ fs, detectTypeMismatches u d ign p st = .ok fs
  | .scalar .., _, _, _, _, _ => ⟨[], rfl⟩
  | .sequence .., _, _, _, _, _ => ⟨[], rfl⟩
  | .mapping ues l, d, ign, p, st, hg => by
      show ∃ fs, (if (d.kindOf == YKind.mapping) = true then
        tmEntries ues d ign p st else Except.ok []) = Except.ok fs
      by_cases hdm : (d.kindOf == YKind.mapping) = true
      · rw [if_pos hdm]
        exact tmEntries_nopanic ues d ign p st hg
      · rw [if_neg hdm]
        exact ⟨[], rfl⟩

/-- The entry loop of the type-mismatch pass never aborts under the
safety side condition. -/
theorem tmEntries_nopanic : ∀ (es : YEntries) (d : YNode) (ign : List String)
    (p : String) (st : Option SchemaTypeMap), stGood st = true →
    ∃ fs, tmEntries es d ign p st = .ok fs
  | .nil, _, _, _, _, _ => ⟨[], rfl⟩
  | .cons k kl v rest, d, ign, p, st, hg => by
      obtain ⟨fs2, hrest⟩ := tmEntries_nopanic rest d ign p st hg
      have hcore : ∃ fs1, tmEntryCore k v d ign p st = .ok fs1 := by
        simp only [tmEntryCore]
        split
        · exact ⟨[], rfl⟩
        · split
          · exact sfc_nopanic v _ st hg
          · split
            · exact sfc_nopanic v _ st hg
            · split
              · exact ⟨[], rfl⟩
              · split
                · split
                  · exact ⟨[], rfl⟩
                  · exact tm_nopanic v _ ign _ st hg
                · split
                  · split
                    · split
                      · split
                        · exact ⟨[], rfl⟩
                        · exact seqElems_nopanic _ 0 _ ign _ st hg
                      · exact ⟨[], rfl⟩
                    · exact ⟨[], rfl⟩
                  · split
                    · exact ⟨[], rfl⟩
                    · split
                      · exact ⟨_, rfl⟩
                      · split
                        · exact ⟨_, rfl⟩
                        · exact ⟨[], rfl⟩
      obtain ⟨fs1, hc1⟩ := hcore
      rw [tmEntries_cons, hc1, hrest]
      exact ⟨fs1 ++ fs2, rfl⟩

/-- The element loop of the sequence template check never aborts under
the safety side condition. -/
theorem seqElems_nopanic : ∀ (items : YSeq) (idx : Nat) (template : YNode)
    (ign : List String) (p : String) (st : Option SchemaTypeMap),
    stGood st = true → ∃ fs, seqElems items idx template ign p st = .ok fs
  | .nil, _, _, _, _, _, _ => ⟨[], rfl⟩
  | .cons elem rest, idx, template, ign, p, st, hg => by
      obtain ⟨fs2, hrest⟩ := seqElems_nopanic rest (idx + 1) template ign p st hg
      obtain ⟨fs1, h1⟩ := tm_nopanic elem template ign
        (p ++ "[" ++ toString idx ++ "]") st hg
      rw [seqElems, hrest]
      by_cases he : (elem.kindOf == YKind.mapping) = true
      · simp [he, h1]
      · simp [he]
end

/-- C10 amended: the type-mismatch pass aborts the run (the Go panic at
the allowedTags[0] read) only through a schema type map entry whose type
list translates to an empty yaml tag list; whenever every entry of the
schema type map contains at least one recognized type name (and always
when no schema type map is supplied, since stGood none holds), the pass
returns normally on all inputs.  The counterexample shows the
unconditional reading of the original sentence is false. -/
theorem c10_amended (u d : YNode) (ign : List String) (p : String)
    (st : Option SchemaTypeMap) (hg : stGood st = true) :
    ∃ fs, detectTypeMismatches u d ign p st = .ok fs :=
  tm_nopanic u d ign p st hg

/-- C10 witness: the amended statement applied to the counterexample
documents with a recognized type name in the schema type map. -/
theorem c10_amended_witness :
    stGood (some [("resources.limits.cpu", ["integer"])]) = true ∧
    ∃ fs, detectTypeMismatches exU10 exD10 [] ""
      (some [("resources.limits.cpu", ["integer"])]) = .ok fs :=
  ⟨by decide,
   c10_amended exU10 exD10 [] "" (some [("resources.limits.cpu", ["integer"])])
     (by decide)⟩

/-- C5 counterexample: the sibling suggestion engine ranges over a Go map
of candidate keys, whose enumeration order the Go runtime randomizes
between runs.  The two candidate lists below are permutations of each
other — two enumeration orders of the same map — and on the tied
candidates ab and ba (both at edit distance 1 from aa) findClosestKey
returns different suggestions, so two runs need not produce identical
Finding sequences when candidates tie. -/
theorem c5_counterexample :
    List.Perm ["ab", "ba"] ["ba", "ab"] ∧
    findClosestKey "aa" ["ab", "ba"] ≠ findClosestKey "aa" ["ba", "ab"] :=
  ⟨List.Perm.swap "ba" "ab" [], by decide⟩

/-- C6 counterexample: a trailing double-star does not match zero
segments when the path is already exhausted: the pattern global.** does
not match the path global, since the matching loop exits with the
double-star segment unconsumed and requires the whole pattern to be
consumed.  The claim that matches(p + ".**", p) holds for every p is
refuted at p = global. -/
theorem c6_counterexample :
    matchGlob ("global" ++ ".**") "global" = false :=
  by decide

/-- Once the loop of findClosestKey holds a candidate whose distance is
minimal among the remaining candidates, it keeps it. -/
theorem fck_foldl_stable (key c : String) : ∀ (l : List String),
    (∀ c' ∈ l, levenshtein (lowerStr key) (lowerStr c) ≤
      levenshtein (lowerStr key) (lowerStr c')) →
    l.foldl (fckStep key) (c, levenshtein (lowerStr key) (lowerStr c)) =
      (c, levenshtein (lowerStr key) (lowerStr c))
  | [], _ => rfl
  | x :: rest, h => by
      have hx := h x (by simp)
      have hstep : fckStep key (c, levenshtein (lowerStr key) (lowerStr c)) x =
          (c, levenshtein (lowerStr key) (lowerStr c)) := by
        unfold fckStep
        rw [if_neg (by omega)]
      rw [List.foldl_cons, hstep]
      exact fck_foldl_stable key c rest (fun c' hc' => h c' (by simp [hc']))

/-- The loop of findClosestKey ends on the strict minimizer, whenever one
exists below the running bound. -/
theorem fck_foldl_best (key c : String) : ∀ (l : List String) (acc : String × Nat),
    c ∈ l →
    levenshtein (lowerStr key) (lowerStr c) < acc.2 →
    (∀ c' ∈ l, c' ≠ c → levenshtein (lowerStr key) (lowerStr c) <
      levenshtein (lowerStr key) (lowerStr c')) →
    l.foldl (fckStep key) acc = (c, levenshtein (lowerStr key) (lowerStr c))
  | [], _, hm, _, _ => absurd hm (List.not_mem_nil c)
  | x :: rest, acc, hm, hacc, huniq => by
      by_cases hxc : x = c
      · subst hxc
        have hstep : fckStep key acc x =
            (x, levenshtein (lowerStr key) (lowerStr x)) := by
          unfold fckStep
          rw [if_pos hacc]
        rw [List.foldl_cons, hstep]
        exact fck_foldl_stable key x rest (fun c' hc' => by
          by_cases h2 : c' = x
          · subst h2; exact le_refl _
          · exact le_of_lt (huniq c' (by simp [hc']) h2))
      · have hm' : c ∈ rest := by
          rcases List.mem_cons.mp hm with h | h
          · exact absurd h.symm hxc
          · exact h
        rw [List.foldl_cons]
        refine fck_foldl_best key c rest (fckStep key acc x) hm' ?_
          (fun c' hc' hne => huniq c' (by simp [hc']) hne)
        unfold fckStep
        by_cases hlt : levenshtein (lowerStr key) (lowerStr x) < acc.2
        · rw [if_pos hlt]
          exact huniq x (by simp) hxc
        · rw [if_neg hlt]
          exact hacc

/-- C5 amended: the Finding content other than suggestions is a pure
function of the inputs, and a suggestion itself is stable across runs
whenever the candidate distances have a unique strict minimizer below
the threshold: findClosestKey returns that minimizer for every
enumeration order of the candidate map, so two runs agree.  When
candidates tie (the counterexample), the result follows the enumeration
order, which the Go runtime randomizes, and may differ between runs. -/
theorem c5_amended (key c : String) (l l2 : List String)
    (hperm : List.Perm l l2) (hm : c ∈ l)
    (hlt : levenshtein (lowerStr key) (lowerStr c) < 4)
    (huniq : ∀ c' ∈ l, c' ≠ c →
      levenshtein (lowerStr key) (lowerStr c) <
        levenshtein (lowerStr key) (lowerStr c')) :
    findClosestKey key l = c ∧ findClosestKey key l2 = c := by
  constructor
  · unfold findClosestKey
    rw [fck_foldl_best key c l ("", 4) hm hlt huniq]
  · unfold findClosestKey
    rw [fck_foldl_best key c l2 ("", 4) (hperm.mem_iff.mp hm) hlt
      (fun c' hc' hne => huniq c' (hperm.mem_iff.mpr hc') hne)]

/-- C5 witness: the amended statement applied to the candidate set of the
repository's suggestion test, where registry is the unique closest
candidate to the typo regsitry, under two enumeration orders. -/
theorem c5_amended_witness :
    List.Perm ["repository", "registry", "tag"] ["registry", "tag", "repository"] ∧
    "registry" ∈ ["repository", "registry", "tag"] ∧
    levenshtein (lowerStr "regsitry") (lowerStr "registry") < 4 ∧
    findClosestKey "regsitry" ["repository", "registry", "tag"] = "registry" ∧
    findClosestKey "regsitry" ["registry", "tag", "repository"] = "registry" :=
  ⟨by decide, by decide, by decide,
   (c5_amended "regsitry" "registry" ["repository", "registry", "tag"]
      ["registry", "tag", "repository"] (by decide) (by decide) (by decide)
      (by decide)).1,
   (c5_amended "regsitry" "registry" ["repository", "registry", "tag"]
      ["registry", "tag", "repository"] (by decide) (by decide) (by decide)
      (by decide)).2⟩

/-- C6 amended: a double-star segment consumes zero or more path
segments only while at least one path segment remains when it is
reached; once the path is exhausted, any remaining pattern segments —
even a lone trailing double-star — make the match fail.  Hence, for any
path whose segments are not themselves the literal double-star, the
pattern made of the path followed by a double-star segment rejects the
path itself, while accepting the path extended by any one segment; and a
mid-pattern double-star can consume zero segments whenever path
segments remain. -/
theorem c6_amended (ss : List String) (h : ∀ s ∈ ss, s ≠ "**") (t : String) :
    matchGlobParts (ss ++ ["**"]) ss = false ∧
    matchGlobParts (ss ++ ["**"]) (ss ++ [t]) = true ∧
    (∀ (ps path : List String), path ≠ [] → matchGlobParts ps path = true →
      matchGlobParts ("**" :: ps) path = true) := by
  refine ⟨?_, ?_, ?_⟩
  · induction ss with
    | nil => simp [matchGlobParts]
    | cons s rest ih =>
        have hs : s ≠ "**" := h s (by simp)
        rw [List.cons_append]
        rw [matchGlobParts]
        simp only [beq_iff_eq, hs, if_false, beq_self_eq_true, Bool.or_true,
          if_true]
        exact ih (fun x hx => h x (by simp [hx]))
  · induction ss with
    | nil => simp [matchGlobParts]
    | cons s rest ih =>
        have hs : s ≠ "**" := h s (by simp)
        rw [List.cons_append, List.cons_append]
        rw [matchGlobParts]
        simp only [beq_iff_eq, hs, if_false, beq_self_eq_true, Bool.or_true,
          if_true]
        exact ih (fun x hx => h x (by simp [hx]))
  · intro ps path hne hm
    cases path with
    | nil => exact absurd rfl hne
    | cons a as =>
        rw [matchGlobParts]
        simp only [beq_self_eq_true, if_true]
        cases ps with
        | nil => simp
        | cons q qs =>
            rw [if_neg (by simp)]
            rw [List.any_eq_true]
            exact ⟨a :: as, (List.mem_tails _ _).mpr (List.suffix_refl _), hm⟩

/-- C6 witness: the amended statement applied to the single-segment path
global and the extension segment x. -/
theorem c6_amended_witness :
    (∀ s ∈ ["global"], s ≠ "**") ∧
    (matchGlobParts (["global"] ++ ["**"]) ["global"] = false ∧
     matchGlobParts (["global"] ++ ["**"]) (["global"] ++ ["x"]) = true ∧
     (∀ (ps path : List String), path ≠ [] → matchGlobParts ps path = true →
       matchGlobParts ("**" :: ps) path = true)) :=
  ⟨by decide, c6_amended ["global"] (by decide) "x"⟩

/-- C7 counterexample: for the user document old: null and a schema
marking old as deprecated with description "use new", the schema stage
emits a Warning finding at the null-valued path old, refuting the claim
that a user-supplied null yields no finding at its path regardless of
schema constraints on that path. -/
theorem c7_counterexample :
    validateSchema exU7 false (some exS7) (.ok []) [] (some []) =
      [⟨.warning, 2, "old", "Deprecated key \"old\" - use new", ""⟩] :=
  by decide

/-- The schema-fallback block accepts an explicit user null. -/
theorem sfc_null (vv : String) (vl : Nat) (fp : String) (st : Option SchemaTypeMap) :
    schemaFallbackCheck (.scalar "!!null" vv vl) fp st = .ok [] := by
  unfold schemaFallbackCheck
  cases st with
  | none => rfl
  | some stm =>
      cases h : lookupAssoc stm fp with
      | none => simp [h]
      | some ts => simp [h, YNode.shortTag]

/-- The schema-fallback block yields nothing when the schema declares no
types for the path. -/
theorem sfc_nolookup (v : YNode) (fp : String) (st : Option SchemaTypeMap)
    (h : stLookup st fp = none) : schemaFallbackCheck v fp st = .ok [] := by
  cases st with
  | none => rfl
  | some stm =>
      simp only [stLookup] at h
      unfold schemaFallbackCheck
      simp [h]

/-- C7 amended: an explicit user null never produces a type-mismatch
finding from its entry, whatever the default and the schema types; and
with a null default and no schema type declared for the path, any user
value produces no type-mismatch finding from its entry.  (The deprecated
Warning of the schema-constraint stage, shown in the counterexample, is
not covered: it can still fire at a null-valued path.) -/
theorem c7_amended (k vv : String) (vl : Nat) (v d : YNode) (ign : List String)
    (p : String) (st : Option SchemaTypeMap) :
    tmEntryCore k (.scalar "!!null" vv vl) d ign p st = .ok [] ∧
    (∀ dv : YNode, getValueForKey d k = some dv → dv.shortTag = "!!null" →
      stLookup st (joinPath p k) = none →
      tmEntryCore k v d ign p st = .ok []) := by
  constructor
  · unfold tmEntryCore
    by_cases hig : matchesIgnore (joinPath p k) ign = true
    · simp [hig]
    · simp only [hig, if_false, Bool.false_eq_true]
      cases hd : getValueForKey d k with
      | none => simp [hd, sfc_null]
      | some dv =>
          simp only [hd]
          by_cases hdn : dv.shortTag = "!!null"
          · simp [hdn, sfc_null]
          · simp [hdn, YNode.shortTag, sfc_null]
  · intro dv hd hnull hst
    unfold tmEntryCore
    by_cases hig : matchesIgnore (joinPath p k) ign = true
    · simp [hig]
    · have hb : (dv.shortTag == "!!null") = true := by simp [hnull]
      simp [hig, hd, hb, sfc_nolookup v _ st hst]

/-- C7 witness: the amended statement applied at a concrete null user
value and at a concrete null default with no schema entry for the path. -/
theorem c7_amended_witness :
    tmEntryCore "x" (.scalar "!!null" "null" 3) exD7w []
      "" (some [("z", ["string"])]) = .ok [] ∧
    tmEntryCore "x" (.scalar "!!str" "v" 3) exD7w []
      "" (some [("z", ["string"])]) = .ok [] :=
  ⟨(c7_amended "x" "null" 3 (.scalar "!!str" "v" 3) exD7w [] ""
      (some [("z", ["string"])])).1,
   (c7_amended "x" "null" 3 (.scalar "!!str" "v" 3) exD7w [] ""
      (some [("z", ["string"])])).2 (.scalar "!!null" "null" 1) rfl rfl (by decide)⟩

/-- C8 counterexample: the path resources.limits.foo.bar does not match
the claim's quantity-like shape (the trailing two ancestors before the
leaf are limits.foo, not resources.limits), so the claim requires exactly
one Error for the string default paired with an integer user value; but
the source classifies the path as quantity-like (it scans for the pair
anywhere) and emits no finding. -/
theorem c8_counterexample :
    specQuantityLike "resources.limits.foo.bar" = false ∧
    isResourceQuantityPath "resources.limits.foo.bar" = true ∧
    detectTypeMismatches exU8 exD8 [] "" none = .ok [] :=
  ⟨by decide, by decide, by decide⟩

/-- C8 amended: for a scalar default paired with a scalar user value in a
string-for-number mismatch, the entry yields no finding when the
source's quantity classification holds of the full path — the pair
resources.limits or resources.requests adjacent anywhere with at least
one further segment — and exactly one Error finding at the path when it
does not (and the path is not ignored). -/
theorem c8_amended (k ut uval : String) (ul : Nat) (dt dval : String) (dl : Nat)
    (d : YNode) (ign : List String) (p : String)
    (hd : getValueForKey d k = some (.scalar dt dval dl))
    (hsim : isStringIntMismatch ut dt = true) :
    (isResourceQuantityPath (joinPath p k) = true →
      tmEntryCore k (.scalar ut uval ul) d ign p none = .ok []) ∧
    (isResourceQuantityPath (joinPath p k) = false →
      matchesIgnore (joinPath p k) ign = false →
      tmEntryCore k (.scalar ut uval ul) d ign p none =
        .ok [⟨.error, ul, joinPath p k,
          "Type mismatch at \"" ++ joinPath p k ++ "\": expected " ++
            friendlyType dt ++ ", got " ++ friendlyType ut ++
            " (\"" ++ uval ++ "\")", ""⟩]) := by
  obtain ⟨htc, hun, hdn, hum, hdm, hus, hds⟩ := sim_facts ut dt hsim
  constructor
  · intro hq
    unfold tmEntryCore
    by_cases hig : matchesIgnore (joinPath p k) ign = true
    · simp [hig]
    · simp [hig, hd, YNode.shortTag, YNode.kindOf, hdn, hun, hq, hsim]
  · intro hq hig
    unfold tmEntryCore
    simp [hig, hd, YNode.shortTag, YNode.kindOf, YNode.lineOf, YNode.valueOf,
      hdn, hun, hq, hsim, htc]

/-- C8 witness: the amended statement applied at the quantity-like path
resources.limits.cpu and at the non-quantity path foo.cpu, for the
string default "1000m" paired with the integer user value 10. -/
theorem c8_amended_witness :
    getValueForKey (.mapping (.cons "cpu" 1 (.scalar "!!str" "1000m" 1) .nil) 1)
      "cpu" = some (.scalar "!!str" "1000m" 1) ∧
    isStringIntMismatch "!!int" "!!str" = true ∧
    tmEntryCore "cpu" (.scalar "!!int" "10" 2)
      (.mapping (.cons "cpu" 1 (.scalar "!!str" "1000m" 1) .nil) 1)
      [] "resources.limits" none = .ok [] ∧
    tmEntryCore "cpu" (.scalar "!!int" "10" 2)
      (.mapping (.cons "cpu" 1 (.scalar "!!str" "1000m" 1) .nil) 1)
      [] "foo" none =
      .ok [⟨.error, 2, joinPath "foo" "cpu",
        "Type mismatch at \"" ++ joinPath "foo" "cpu" ++ "\": expected " ++
          friendlyType "!!str" ++ ", got " ++ friendlyType "!!int" ++
          " (\"" ++ "10" ++ "\")", ""⟩] :=
  ⟨rfl, by decide,
   (c8_amended "cpu" "!!int" "10" 2 "!!str" "1000m" 1
      (.mapping (.cons "cpu" 1 (.scalar "!!str" "1000m" 1) .nil) 1)
      [] "resources.limits" rfl (by decide)).1 (by decide),
   (c8_amended "cpu" "!!int" "10" 2 "!!str" "1000m" 1
      (.mapping (.cons "cpu" 1 (.scalar "!!str" "1000m" 1) .nil) 1)
      [] "foo" rfl (by decide)).2 (by decide) (by decide)⟩

/-- C9 counterexample: with default a: (empty mapping) and user a: [(b:
1)] — nested user structure beneath the path a — the type-mismatch pass
emits an Error at the path a, because the empty-default wildcard only
short-circuits when the user value is itself a mapping. -/
theorem c9_counterexample :
    detectTypeMismatches exU9 exD9 [] "" none =
      .ok [⟨.error, 1, "a",
        "Type mismatch at \"a\": expected map, got list (\"\")", ""⟩] :=
  by decide

/-- C9 amended: at a path whose default value is an empty mapping (the
key known, not a subchart), the unknown-key pass contributes no finding
for any user value whatsoever, and the type-mismatch pass contributes no
finding when the user value is itself a mapping — in both cases the
empty-default wildcard stops the walk, so no descendant is reported
either.  A non-mapping user value at such a path is still reported by
the type pass, as the counterexample shows. -/
theorem c9_amended (k : String) (kl dl : Nat) (v d : YNode)
    (sub : List (String × YNode)) (sk : Option (List String))
    (ign : List String) (p : String) (ap : Option (List (String × String)))
    (st : Option SchemaTypeMap)
    (hd : getValueForKey d k = some (.mapping .nil dl))
    (hsub : lookupAssoc sub k = none) :
    unknownEntryCore k kl v d sk sub ign p ap = [] ∧
    (v.kindOf = .mapping → tmEntryCore k v d ign p st = .ok []) := by
  have hc := getVal_contains d k _ hd
  constructor
  · unfold unknownEntryCore
    by_cases hig : matchesIgnore (joinPath p k) ign = true
    · simp [hig]
    · simp [hig, hsub, hc, hd, YNode.kindOf, YNode.contentE, YEntries.isEmptyE]
      intro hmem
      exact absurd (by simpa using hc) hmem
  · intro hv
    cases v with
    | scalar t x l => simp [YNode.kindOf] at hv
    | sequence xs l => simp [YNode.kindOf] at hv
    | mapping es l =>
        unfold tmEntryCore
        by_cases hig : matchesIgnore (joinPath p k) ign = true
        · simp [hig]
        · simp [hig, hd, YNode.shortTag, YNode.kindOf, YNode.contentE,
            YEntries.isEmptyE]

/-- C9 witness: the amended statement applied to the empty-mapping
default of the counterexample with a mapping-valued user subtree. -/
theorem c9_amended_witness :
    getValueForKey exD9 "a" = some (.mapping .nil 1) ∧
    unknownEntryCore "a" 1 (.mapping (.cons "q" 2 (.scalar "!!int" "1" 2) .nil) 2)
      exD9 none [] [] "" none = [] ∧
    tmEntryCore "a" (.mapping (.cons "q" 2 (.scalar "!!int" "1" 2) .nil) 2)
      exD9 [] "" none = .ok [] :=
  ⟨rfl,
   (c9_amended "a" 1 1 (.mapping (.cons "q" 2 (.scalar "!!int" "1" 2) .nil) 2)
      exD9 [] none [] "" none none rfl rfl).1,
   (c9_amended "a" 1 1 (.mapping (.cons "q" 2 (.scalar "!!int" "1" 2) .nil) 2)
      exD9 [] none [] "" none none rfl rfl).2 rfl⟩

/-- C10 counterexample: with defaults lacking resources.limits.cpu, a
schema type map entry for that quantity-like path holding only the
unrecognized type name frob (empty tag translation), and an integer user
value there, evaluation aborts: the source reads allowedTags[0] of an
empty slice, an out-of-range index, modelled as the error result. -/
theorem c10_counterexample :
    detectTypeMismatches exU10 exD10 [] "" (some exSt10) = .error () :=
  by decide

end HVC